import Mathlib

/-!
Verification of the scoretracker-core specification against a shallow
embedding of the source.  The embedding follows the Rust modules:

* `Lockfile`   — `src/util/lockfile.rs` (lock manager);
* `FileEx`     — `src/util/file_ex.rs` (jsonlines reading);
* `Hive`       — `src/hive/task.rs`, `src/hive/queue.rs`,
  `src/hive/worker/mod.rs`, `src/hive/worker/ipc.rs`, `src/hive/job.rs`;
* `Cfg`       — `src/config/mod.rs`.

Filesystem state is modelled explicitly: the set of existing lock-marker
files is a `List String`; I/O outcomes that depend on the operating system
(write failures, watcher notifications, the bytes arriving on a socket) are
passed in as explicit parameters, so every function of the source becomes a
pure Lean function of its inputs plus those oracles.
-/

namespace Lockfile

/-- Kinds of OS-level I/O errors relevant to the lockfile module; mirrors
the `std::io::ErrorKind` values the source inspects. -/
inductive IoErrorKind where
  | alreadyExists
  | notFound
  | other
deriving DecidableEq, Repr

/-- Mirrors `lockfile::Error` in `src/util/lockfile.rs`.  The payload of the
I/O-carrying constructors is reduced to the error kind, which is all the
source ever inspects. -/
inductive LfError where
  | NoParentPath (path : String)
  | NoFilename (path : String)
  | FilenameIsNotUTF8 (path : String)
  | CannotCreateLockfile (kind : IoErrorKind)
  | CannotWriteLockfile (kind : IoErrorKind)
  | CannotRemoveLockfile (kind : IoErrorKind)
  | CannotGetRecommendedWatcher
  | CannotWatchLockfile
  | FileExError
deriving DecidableEq, Repr

/-- Mirrors `Error::is_already_locked`: true only for a
`CannotCreateLockfile` whose I/O error kind is `AlreadyExists`. -/
def LfError.is_already_locked : LfError → Bool
  | .CannotCreateLockfile kind => kind = IoErrorKind.alreadyExists
  | _ => false

/-- Mirrors `lockfile::is_file_locked` applied to a `Result`. -/
def is_file_locked {α : Type} : Except LfError α → Bool
  | .error e => e.is_already_locked
  | .ok _ => false

/-- Mirrors `LockfileHandle::lockfile_path_for`: the lock marker lives next
to the main file, with the suffix `.lock` appended to the filename.  Paths
are modelled as strings; the `NoParentPath` / `NoFilename` /
`FilenameIsNotUTF8` failure modes concern OS path decomposition and are not
modelled (they never produce the already-locked outcome). -/
def lockfile_path_for (path : String) : String :=
  path ++ ".lock"

/-- Mirrors the `LockfileHandle` struct: the guarded file's path and the
derived marker path. -/
structure LockfileHandle where
  main_file_path : String
  lockfile_path : String
deriving DecidableEq, Repr

/-- Mirrors `LockfileHandle::create_lockfile_on_disk`, built on Rust's
`File::create_new`: a single atomic create-fail-if-exists step.  If the
marker path already exists the create fails with `AlreadyExists` and the
disk is untouched; otherwise the marker is created, and the subsequent
write of the provenance text either succeeds (`writeOk = true`) or fails
with `CannotWriteLockfile` — the marker exists either way, because
`create_new` already created it. -/
def create_lockfile_on_disk (disk : List String) (lockfile_path : String)
    (writeOk : Bool) : Except LfError Unit × List String :=
  if lockfile_path ∈ disk then
    (.error (.CannotCreateLockfile .alreadyExists), disk)
  else if writeOk then
    (.ok (), lockfile_path :: disk)
  else
    (.error (.CannotWriteLockfile .other), lockfile_path :: disk)

/-- Mirrors `LockfileHandle::acquire`: derive the marker path, atomically
create the marker, and on success return the handle. -/
def LockfileHandle.acquire (disk : List String) (path : String)
    (writeOk : Bool) : Except LfError LockfileHandle × List String :=
  let lp := lockfile_path_for path
  match create_lockfile_on_disk disk lp writeOk with
  | (.ok _, disk') => (.ok ⟨path, lp⟩, disk')
  | (.error e, disk') => (.error e, disk')

/-- Mirrors `impl Drop for LockfileHandle` and `unlock`: remove the marker
file from disk.  `removeOk = false` models a failed `fs::remove_file`; the
source downgrades that to a warning on drop, and in both cases the handle
itself is gone afterwards. -/
def LockfileHandle.release (disk : List String) (h : LockfileHandle)
    (removeOk : Bool) : List String :=
  if removeOk then disk.erase h.lockfile_path else disk

end Lockfile

namespace LockSys

open Lockfile

/-- Global state of the lock manager across all participants: which marker
files exist, and which lock handles are currently live (held), recorded by
their marker path.  A marker path occurring twice in `held` would mean two
overlapping handles for the same guarded file. -/
structure State where
  disk : List String
  held : List String
deriving DecidableEq, Repr

/-- One step of any participant that goes through the lock manager.
`acquireOk` is a successful `LockfileHandle::acquire`; `acquireFail` is an
attempt that returns an error (already locked, or a marker-created-but-
write-failed leak) and produces no handle; `release` drops a live handle,
with `removeOk` telling whether the marker removal succeeded. -/
inductive Step : State → State → Prop where
  | acquireOk (s : State) (path : String) (h : LockfileHandle)
      (hres : (LockfileHandle.acquire s.disk path true).1 = .ok h) :
      Step s ⟨(LockfileHandle.acquire s.disk path true).2,
              h.lockfile_path :: s.held⟩
  | acquireFail (s : State) (path : String) (writeOk : Bool) (e : LfError)
      (hres : (LockfileHandle.acquire s.disk path writeOk).1 = .error e) :
      Step s ⟨(LockfileHandle.acquire s.disk path writeOk).2, s.held⟩
  | release (s : State) (h : LockfileHandle) (removeOk : Bool)
      (hmem : h.lockfile_path ∈ s.held) :
      Step s ⟨h.release s.disk removeOk, s.held.erase h.lockfile_path⟩

/-- States reachable from an initial state with no live handles (markers
may pre-exist, e.g. stale ones left by a killed process). -/
inductive Reachable : State → Prop where
  | init (disk : List String) : Reachable ⟨disk, []⟩
  | step {s t : State} : Reachable s → Step s t → Reachable t

/-- The inductive invariant: every live handle's marker exists on disk, and
no marker path is held by two live handles at once. -/
def Inv (s : State) : Prop :=
  (∀ lp, lp ∈ s.held → lp ∈ s.disk) ∧ (∀ lp, s.held.count lp ≤ 1)

end LockSys

namespace Lockfile

/-- A successful `acquire` means the marker was absent, the provenance
write succeeded, the handle's marker path is the derived one, and the
marker is now on disk. -/
theorem acquire_ok_characterize {disk : List String} {path : String}
    {writeOk : Bool} {h : LockfileHandle}
    (hres : (LockfileHandle.acquire disk path writeOk).1 = .ok h) :
    h = ⟨path, lockfile_path_for path⟩ ∧
    lockfile_path_for path ∉ disk ∧
    (LockfileHandle.acquire disk path writeOk).2 =
      lockfile_path_for path :: disk := by
  unfold LockfileHandle.acquire create_lockfile_on_disk at hres ⊢
  by_cases hmem : lockfile_path_for path ∈ disk <;>
    by_cases hw : writeOk <;> simp_all [eq_comm]

/-- A failed `acquire` leaves the set of live handles unaffected and the
disk either unchanged (already locked) or with the marker added (created
but provenance write failed). -/
theorem acquire_error_disk {disk : List String} {path : String}
    {writeOk : Bool} {e : LfError}
    (hres : (LockfileHandle.acquire disk path writeOk).1 = .error e) :
    (LockfileHandle.acquire disk path writeOk).2 = disk ∨
    (LockfileHandle.acquire disk path writeOk).2 =
      lockfile_path_for path :: disk := by
  unfold LockfileHandle.acquire create_lockfile_on_disk at hres ⊢
  by_cases hmem : lockfile_path_for path ∈ disk <;>
    by_cases hw : writeOk <;> simp_all

end Lockfile

namespace LockSys

open Lockfile

/-- Every lock-manager step preserves the invariant. -/
theorem inv_step {s t : State} (hinv : Inv s) (hst : Step s t) : Inv t := by
  obtain ⟨hsub, hcount⟩ := hinv
  cases hst with
  | acquireOk path h hres =>
    obtain ⟨hh, hnot, hdisk⟩ := acquire_ok_characterize hres
    have hlp : h.lockfile_path = lockfile_path_for path := by rw [hh]
    rw [hdisk]
    constructor
    · intro lp hmem
      rcases List.mem_cons.mp hmem with heq | hmem'
      · rw [heq, hlp]
        exact List.mem_cons_self _ _
      · exact List.mem_cons_of_mem _ (hsub lp hmem')
    · intro lp
      by_cases heq : lp = h.lockfile_path
      · rw [heq, List.count_cons_self]
        have hz : s.held.count h.lockfile_path = 0 := by
          rw [List.count_eq_zero]
          intro hmemH
          exact hnot (hlp ▸ hsub _ hmemH)
        omega
      · rw [List.count_cons_of_ne heq]
        exact hcount lp
  | acquireFail path writeOk e hres =>
    constructor
    · intro lp hmem
      rcases acquire_error_disk hres with hdisk | hdisk
      · rw [hdisk]; exact hsub lp hmem
      · rw [hdisk]; exact List.mem_cons_of_mem _ (hsub lp hmem)
    · exact hcount
  | release h removeOk hmem =>
    constructor
    · intro lp hmemE
      have hlpheld : lp ∈ s.held := List.mem_of_mem_erase hmemE
      have hlpdisk : lp ∈ s.disk := hsub lp hlpheld
      show lp ∈ LockfileHandle.release s.disk h removeOk
      unfold LockfileHandle.release
      by_cases hrm : removeOk
      · simp only [hrm, if_true]
        by_cases heq : lp = h.lockfile_path
        · exfalso
          have h1 : s.held.count h.lockfile_path ≤ 1 := hcount _
          have hz : (s.held.erase h.lockfile_path).count h.lockfile_path = 0 := by
            rw [List.count_erase_self]
            omega
          have hno : lp ∉ s.held.erase h.lockfile_path := by
            rw [heq]
            exact List.count_eq_zero.mp hz
          exact hno hmemE
        · exact (List.mem_erase_of_ne heq).mpr hlpdisk
      · simp only [hrm, if_false]
        exact hlpdisk
    · intro lp
      exact le_trans (List.Sublist.count_le (List.erase_sublist _ _) lp) (hcount lp)

/-- Every reachable lock-manager state satisfies the invariant. -/
theorem inv_reachable {s : State} (h : Reachable s) : Inv s := by
  induction h with
  | init disk => exact ⟨by simp, by simp⟩
  | step _ hst ih => exact inv_step ih hst

end LockSys

/-- C1: mutual exclusion of lock handles.  In every state reachable by
participants that all go through the lock manager (whose atomic
create-if-absent is the `create_lockfile_on_disk` model), any marker path
is held by at most one live handle at a time — so the lifetimes of two
handles for the same path never overlap. -/
theorem C1_lock_mutual_exclusion (s : LockSys.State)
    (h : LockSys.Reachable s) (lp : String) :
    s.held.count lp ≤ 1 :=
  (LockSys.inv_reachable h).2 lp

/-- C1 witness: a concrete reachable state obtained by one successful
acquire of path `q`. -/
theorem C1_lock_mutual_exclusion_witness :
    (⟨["q.lock"], ["q.lock"]⟩ : LockSys.State).held.count "q.lock" ≤ 1 := by
  refine C1_lock_mutual_exclusion ⟨["q.lock"], ["q.lock"]⟩ ?_ "q.lock"
  have h0 : LockSys.Reachable ⟨[], []⟩ := LockSys.Reachable.init []
  have hstep := LockSys.Step.acquireOk ⟨[], []⟩ "q" ⟨"q", "q.lock"⟩ rfl
  exact LockSys.Reachable.step h0 hstep

/-- C3: `acquire` uses a single atomic create-fail-if-exists primitive
(`create_lockfile_on_disk`, the model of `File::create_new`), returns an
error whose `is_already_locked` is true exactly when the marker already
exists at the moment of the create attempt, and in that case creates no
new marker (the disk is unchanged). -/
theorem C3_acquire_already_locked_iff (disk : List String) (path : String)
    (writeOk : Bool) :
    ((∃ e, (Lockfile.LockfileHandle.acquire disk path writeOk).1 = .error e ∧
        e.is_already_locked = true) ↔ Lockfile.lockfile_path_for path ∈ disk) ∧
    (Lockfile.lockfile_path_for path ∈ disk →
      (Lockfile.LockfileHandle.acquire disk path writeOk).2 = disk) := by
  unfold Lockfile.LockfileHandle.acquire Lockfile.create_lockfile_on_disk
  by_cases hmem : Lockfile.lockfile_path_for path ∈ disk <;>
    by_cases hw : writeOk <;>
      simp_all [Lockfile.LfError.is_already_locked]

/-- C3 witness: with the marker for `q` on disk, acquire reports
already-locked and leaves the disk unchanged. -/
theorem C3_acquire_already_locked_witness :
    (Lockfile.LockfileHandle.acquire ["q.lock"] "q" true).2 = ["q.lock"] :=
  (C3_acquire_already_locked_iff ["q.lock"] "q" true).2 (by decide)

namespace Lockfile

/-- Kinds of filesystem notifications, mirroring the `notify` crate's event
classification that `acquire_wait` inspects via `is_remove` / `is_modify`. -/
inductive EventKind where
  | remove
  | modify
  | create
  | access
  | anyOther
deriving DecidableEq, Repr

/-- Mirrors `notify` event kind `is_remove`. -/
def EventKind.is_remove : EventKind → Bool
  | .remove => true
  | _ => false

/-- Mirrors `notify` event kind `is_modify`. -/
def EventKind.is_modify : EventKind → Bool
  | .modify => true
  | _ => false

/-- One wake-up of the `acquire_wait` loop: the kind of the notification
received on the channel, the disk state at the instant a create would be
re-attempted, whether that create's provenance write would succeed, and
whether re-establishing the watch succeeds. -/
structure WaitEvent where
  kind : EventKind
  disk : List String
  writeOk : Bool
  rewatchOk : Bool
deriving DecidableEq, Repr

/-- How `acquire_wait` exits (or fails to): at the initial attempt, at the
post-watcher-setup attempt, at the re-attempt triggered by notification
number `i`, with a watcher-setup or re-watch error, or not at all
(`blocked`: the given notifications are exhausted and the loop is still
blocked on the channel). -/
inductive WaitOutcome where
  | returnedInitial (r : Except LfError LockfileHandle)
  | returnedSetup (r : Except LfError LockfileHandle)
  | returnedAtEvent (i : Nat) (r : Except LfError LockfileHandle)
  | watcherError
  | watchError
  | rewatchError (i : Nat)
  | blocked
deriving Repr

/-- The `for res in rx` loop of `acquire_wait` (lines 230-271 of
`src/util/lockfile.rs`): on a remove or modify notification re-attempt the
atomic create and return unless the file is still locked; in every other
case (including notifications of any other kind) unwatch and re-watch the
marker path, failing hard if the re-watch fails, and go back to blocking
on the channel. -/
def acquire_wait_loop (path : String) : List WaitEvent → Nat → WaitOutcome
  | [], _ => .blocked
  | e :: rest, i =>
    if e.kind.is_remove || e.kind.is_modify then
      let r := (LockfileHandle.acquire e.disk path e.writeOk).1
      if is_file_locked r then
        if e.rewatchOk then acquire_wait_loop path rest (i + 1)
        else .rewatchError i
      else
        .returnedAtEvent i r
    else
      if e.rewatchOk then acquire_wait_loop path rest (i + 1)
      else .rewatchError i

/-- The indices of the notifications at which `acquire_wait_loop` actually
re-attempts the atomic create, mirroring exactly the loop's control flow. -/
def acquire_wait_attempted (path : String) : List WaitEvent → Nat → List Nat
  | [], _ => []
  | e :: rest, i =>
    if e.kind.is_remove || e.kind.is_modify then
      if is_file_locked (LockfileHandle.acquire e.disk path e.writeOk).1 then
        if e.rewatchOk then i :: acquire_wait_attempted path rest (i + 1)
        else [i]
      else [i]
    else
      if e.rewatchOk then acquire_wait_attempted path rest (i + 1)
      else []

/-- The oracle inputs of one `acquire_wait` run: disk states and write
outcomes at the initial and post-setup attempts, watcher setup outcomes,
and the notification trace. -/
structure WaitEnv where
  initialDisk : List String
  initialWriteOk : Bool
  watcherOk : Bool
  watchOk : Bool
  setupDisk : List String
  setupWriteOk : Bool
  events : List WaitEvent
deriving DecidableEq, Repr

/-- Mirrors `LockfileHandle::acquire_wait`: an initial acquire attempt
(returned unless already locked), watcher setup, a second attempt covering
the race between the first attempt and the watch, then the notification
loop. -/
def LockfileHandle.acquire_wait (path : String) (env : WaitEnv) : WaitOutcome :=
  if ¬ is_file_locked
      (LockfileHandle.acquire env.initialDisk path env.initialWriteOk).1 then
    .returnedInitial (LockfileHandle.acquire env.initialDisk path env.initialWriteOk).1
  else if ¬ env.watcherOk then .watcherError
  else if ¬ env.watchOk then .watchError
  else if ¬ is_file_locked
      (LockfileHandle.acquire env.setupDisk path env.setupWriteOk).1 then
    .returnedSetup (LockfileHandle.acquire env.setupDisk path env.setupWriteOk).1
  else acquire_wait_loop path env.events 0

/-- A successful exit of the wait loop happened at a remove-or-modify
notification whose re-attempted atomic create succeeded, i.e. at an
instant when the marker was absent from disk. -/
theorem wait_loop_ok_characterize {path : String} :
    ∀ (events : List WaitEvent) (i0 j : Nat) (h : LockfileHandle),
      acquire_wait_loop path events i0 = .returnedAtEvent j (.ok h) →
      ∃ k e, events.get? k = some e ∧ j = i0 + k ∧
        (e.kind.is_remove || e.kind.is_modify) = true ∧
        lockfile_path_for path ∉ e.disk := by
  intro events
  induction events with
  | nil =>
    intro i0 j h hl
    simp [acquire_wait_loop] at hl
  | cons e rest ih =>
    intro i0 j h hl
    unfold acquire_wait_loop at hl
    by_cases hk : (e.kind.is_remove || e.kind.is_modify) = true
    · rw [if_pos hk] at hl
      by_cases hlock :
          is_file_locked (LockfileHandle.acquire e.disk path e.writeOk).1 = true
      · simp only [hlock, if_true] at hl
        by_cases hrw : e.rewatchOk
        · rw [if_pos hrw] at hl
          obtain ⟨k, e', hget, hj, hkind, hmem⟩ := ih (i0 + 1) j h hl
          exact ⟨k + 1, e', by simpa using hget, by omega, hkind, hmem⟩
        · rw [if_neg hrw] at hl
          exact absurd hl (by simp)
      · simp only [Bool.not_eq_true] at hlock
        simp only [hlock, Bool.false_eq_true, if_false] at hl
        rw [WaitOutcome.returnedAtEvent.injEq] at hl
        obtain ⟨hj, hr⟩ := hl
        obtain ⟨_, hnot, _⟩ := acquire_ok_characterize hr
        exact ⟨0, e, rfl, by omega, hk, hnot⟩
    · rw [if_neg hk] at hl
      by_cases hrw : e.rewatchOk
      · rw [if_pos hrw] at hl
        obtain ⟨k, e', hget, hj, hkind, hmem⟩ := ih (i0 + 1) j h hl
        exact ⟨k + 1, e', by simpa using hget, by omega, hkind, hmem⟩
      · rw [if_neg hrw] at hl
        exact absurd hl (by simp)

end Lockfile

/-- C2 counterexample: the claim says `acquire_wait` re-attempts the atomic
create on every filesystem notification received while waiting.  On this
concrete run the path is initially locked, one notification arrives whose
kind is `create` (neither remove nor modify) at an instant when the marker
is in fact gone from disk, yet the loop makes no re-attempt at all
(`acquire_wait_attempted` is empty) and stays blocked instead of acquiring. -/
theorem C2_create_notification_not_reattempted :
    Lockfile.LockfileHandle.acquire_wait "q"
        ⟨["q.lock"], true, true, true, ["q.lock"], true,
          [⟨Lockfile.EventKind.create, [], true, true⟩]⟩ =
      Lockfile.WaitOutcome.blocked ∧
    Lockfile.acquire_wait_attempted "q"
        [⟨Lockfile.EventKind.create, [], true, true⟩] 0 = [] ∧
    ([⟨Lockfile.EventKind.create, [], true, true⟩] :
        List Lockfile.WaitEvent).length = 1 :=
  ⟨rfl, rfl, rfl⟩


namespace Lockfile

/-- The wait loop only ever exits with a notification-indexed return, a
re-watch error, or by staying blocked; never with an initial-stage or
setup-stage return. -/
theorem wait_loop_shape {path : String} :
    ∀ (events : List WaitEvent) (i0 : Nat),
      (∃ i r, acquire_wait_loop path events i0 = .returnedAtEvent i r) ∨
      (∃ i, acquire_wait_loop path events i0 = .rewatchError i) ∨
      acquire_wait_loop path events i0 = .blocked
  | [], _ => Or.inr (Or.inr rfl)
  | e :: rest, i0 => by
    unfold acquire_wait_loop
    by_cases hk : (e.kind.is_remove || e.kind.is_modify) = true
    · rw [if_pos hk]
      by_cases hlock :
          is_file_locked (LockfileHandle.acquire e.disk path e.writeOk).1 = true
      · simp only [hlock, if_true]
        by_cases hrw : e.rewatchOk
        · rw [if_pos hrw]; exact wait_loop_shape rest (i0 + 1)
        · rw [if_neg hrw]; exact Or.inr (Or.inl ⟨i0, rfl⟩)
      · simp only [Bool.not_eq_true] at hlock
        simp only [hlock, Bool.false_eq_true, if_false]
        exact Or.inl ⟨i0, _, rfl⟩
    · rw [if_neg hk]
      by_cases hrw : e.rewatchOk
      · rw [if_pos hrw]; exact wait_loop_shape rest (i0 + 1)
      · rw [if_neg hrw]; exact Or.inr (Or.inl ⟨i0, rfl⟩)

end Lockfile

/-- C2 (amended): wait correctness of `acquire_wait`.  Every successful
return — at the initial attempt, at the post-setup attempt, or at a
notification — is produced by a successful atomic create-if-absent at an
instant when the lock marker was absent from disk; a success at a
notification happens only at one of kind remove or modify; and whenever
the waiting loop processes a remove-or-modify notification it re-attempts
the atomic create at that notification (other notification kinds only
re-arm the watch and never produce a return). -/
theorem C2_wait_correctness (path : String) (env : Lockfile.WaitEnv)
    (h : Lockfile.LockfileHandle) :
    (Lockfile.LockfileHandle.acquire_wait path env =
        .returnedInitial (.ok h) →
      Lockfile.lockfile_path_for path ∉ env.initialDisk) ∧
    (Lockfile.LockfileHandle.acquire_wait path env =
        .returnedSetup (.ok h) →
      Lockfile.lockfile_path_for path ∉ env.setupDisk) ∧
    (∀ i, Lockfile.LockfileHandle.acquire_wait path env =
        .returnedAtEvent i (.ok h) →
      ∃ e, env.events.get? i = some e ∧
        (e.kind.is_remove || e.kind.is_modify) = true ∧
        Lockfile.lockfile_path_for path ∉ e.disk) ∧
    (∀ (e : Lockfile.WaitEvent) (rest : List Lockfile.WaitEvent) (i0 : Nat),
      (e.kind.is_remove || e.kind.is_modify) = true →
      (Lockfile.acquire_wait_attempted path (e :: rest) i0).head? = some i0) := by
  refine ⟨?_, ?_, ?_, ?_⟩
  · intro hret
    unfold Lockfile.LockfileHandle.acquire_wait at hret
    split_ifs at hret
    all_goals try simp at hret
    all_goals first
      | exact (Lockfile.acquire_ok_characterize hret).2.1
      | (rcases @Lockfile.wait_loop_shape path env.events 0 with
          ⟨i, r, hs⟩ | ⟨i, hs⟩ | hs <;> rw [hs] at hret <;> simp at hret)
  · intro hret
    unfold Lockfile.LockfileHandle.acquire_wait at hret
    split_ifs at hret
    all_goals try simp at hret
    all_goals first
      | exact (Lockfile.acquire_ok_characterize hret).2.1
      | (rcases @Lockfile.wait_loop_shape path env.events 0 with
          ⟨i, r, hs⟩ | ⟨i, hs⟩ | hs <;> rw [hs] at hret <;> simp at hret)
  · intro i hret
    unfold Lockfile.LockfileHandle.acquire_wait at hret
    split_ifs at hret
    all_goals
      obtain ⟨k, e, hget, hj, hkind, hmem⟩ :=
        Lockfile.wait_loop_ok_characterize env.events 0 i h hret
      have hki : k = i := by omega
      exact ⟨e, hki ▸ hget, hkind, hmem⟩
  · intro e rest i0 hk
    unfold Lockfile.acquire_wait_attempted
    rw [if_pos hk]
    by_cases hlock :
        Lockfile.is_file_locked
          (Lockfile.LockfileHandle.acquire e.disk path e.writeOk).1 = true
    · simp only [hlock, if_true]
      by_cases hrw : e.rewatchOk
      · rw [if_pos hrw]; rfl
      · rw [if_neg hrw]; rfl
    · simp only [Bool.not_eq_true] at hlock
      simp only [hlock, Bool.false_eq_true, if_false]
      rfl

/-- C2 witness: on a run where the path is locked at first and a remove
notification arrives with the marker gone, `acquire_wait` returns at that
notification, and the theorem yields the notification's kind and the
marker's absence. -/
theorem C2_wait_correctness_witness :
    ∃ e, ([⟨Lockfile.EventKind.remove, [], true, true⟩] :
        List Lockfile.WaitEvent).get? 0 = some e ∧
      (e.kind.is_remove || e.kind.is_modify) = true ∧
      Lockfile.lockfile_path_for "q" ∉ e.disk :=
  ((C2_wait_correctness "q"
      ⟨["q.lock"], true, true, true, ["q.lock"], true,
        [⟨Lockfile.EventKind.remove, [], true, true⟩]⟩
      ⟨"q", "q.lock"⟩).2.2.1) 0 rfl

namespace Hive

/-- Mirrors `TaskState` in `src/hive/task.rs`. -/
inductive TaskState where
  | Queued
  | Working
  | Done
  | Failed
deriving DecidableEq, Repr

/-- Mirrors `job::Error` in `src/hive/job.rs`. -/
inductive JobError where
  | UnknownError
  | LibraryError (msg : String)
deriving DecidableEq, Repr

/-- Mirrors `job::Success` in `src/hive/job.rs`; UUIDs are modelled as
naturals. -/
inductive JobSuccess where
  | Void
  | ProcessedVideo (dry wet : Nat)
  | CutVideo (cloth fragment : Nat)
deriving DecidableEq, Repr

/-- Mirrors `TaskResult` in `src/hive/task.rs`. -/
inductive TaskResult where
  | Success (s : JobSuccess)
  | Error (e : JobError)
deriving DecidableEq, Repr

/-- Mirrors the `Job` enum of `src/hive/job.rs`; paths are strings,
durations and cut points are naturals, UUIDs naturals.  The payloads are
opaque to the dispatch protocol. -/
inductive Job where
  | Sleep (time_nanos : Nat)
  | DisplayMessage (message : String)
  | DisplayMessageAndSleep (message : String) (time_nanos : Nat)
  | CutVideo (source_proof_uuid : Nat) (source_path : String)
      (cut_point_start_ms cut_point_end_ms : Option Nat)
      (destination_path : String)
  | ProcessVideo (source_proof_uuid : Nat) (source_path : String)
      (destination_path : String)
deriving DecidableEq, Repr

/-- Mirrors `WorkerInfo` in `src/hive/worker/mod.rs`; the socket address is
a string, timestamps are integers (nanoseconds). -/
structure WorkerInfo where
  name : String
  pid : Nat
  birth_timestamp : Int
  address : String
deriving DecidableEq, Repr

/-- Mirrors `Task` in `src/hive/task.rs`; UUIDs are naturals, timestamps
integers (nanoseconds). -/
structure Task where
  uuid : Nat
  name : String
  comment : Option String
  job : Job
  state : TaskState
  request_timestamp : Int
  start_timestamp : Option Int
  worker_info : Option WorkerInfo
  finish_timestamp : Option Int
  result : Option TaskResult
deriving DecidableEq, Repr

/-- Mirrors `TaskQueueLock::get_task`: first task with the given UUID. -/
def get_task (tasks : List Task) (task_uuid : Nat) : Option Task :=
  tasks.find? (fun task => task.uuid == task_uuid)

/-- Mirrors `TaskQueueLock::top_queued_task`: first task in stored order
whose state is `Queued`. -/
def top_queued_task (tasks : List Task) : Option Task :=
  tasks.find? (fun task => task.state == TaskState.Queued)

/-- Mirrors `TaskQueueLock::add_task`.  The Rust method mutates `self` and
returns a `Result`; here it returns the result together with the queue
afterwards (unchanged on error). -/
def add_task (tasks : List Task) (task : Task) :
    Except Nat Unit × List Task :=
  if (get_task tasks task.uuid).isNone then
    (.ok (), tasks ++ [task])
  else
    (.error task.uuid, tasks)

/-- The in-place replacement of the first task carrying the given UUID,
mirroring `get_task_mut` followed by assignment through the reference. -/
def replace_task : List Task → Task → Option (List Task)
  | [], _ => none
  | t :: rest, task =>
    if t.uuid == task.uuid then some (task :: rest)
    else (replace_task rest task).map (t :: ·)

/-- Mirrors `TaskQueueLock::update_task`: replace the first existing task
with the same UUID; error (queue unchanged) if absent. -/
def update_task (tasks : List Task) (task : Task) :
    Except Nat Unit × List Task :=
  match replace_task tasks task with
  | some tasks' => (.ok (), tasks')
  | none => (.error task.uuid, tasks)

/-- Mirrors `TaskQueueLock::add_or_update_task`: replace if present, append
otherwise; total. -/
def add_or_update_task (tasks : List Task) (task : Task) : List Task :=
  match replace_task tasks task with
  | some tasks' => tasks'
  | none => tasks ++ [task]

end Hive

namespace Hive

/-- `get_task` misses exactly when no task carries the UUID. -/
theorem get_task_none_iff {tasks : List Task} {u : Nat} :
    get_task tasks u = none ↔ ∀ t ∈ tasks, t.uuid ≠ u := by
  simp [get_task, List.find?_eq_none]

/-- `replace_task` misses exactly when no task carries the UUID. -/
theorem replace_task_none_iff {tasks : List Task} {task : Task} :
    replace_task tasks task = none ↔ ∀ t ∈ tasks, t.uuid ≠ task.uuid := by
  induction tasks with
  | nil => simp [replace_task]
  | cons t rest ih =>
    unfold replace_task
    by_cases heq : t.uuid = task.uuid
    · simp [heq]
    · simp only [beq_iff_eq, heq, if_false, Option.map_eq_none', ih,
        List.mem_cons]
      constructor
      · intro hall t' ht'
        rcases ht' with h1 | h2
        · rw [h1]; exact heq
        · exact hall t' h2
      · intro hall t' ht'
        exact hall t' (Or.inr ht')

/-- A successful in-place replacement leaves the stored sequence of UUIDs
unchanged. -/
theorem replace_task_map_uuid {tasks tasks' : List Task} {task : Task}
    (h : replace_task tasks task = some tasks') :
    tasks'.map Task.uuid = tasks.map Task.uuid := by
  induction tasks generalizing tasks' with
  | nil => simp [replace_task] at h
  | cons t rest ih =>
    unfold replace_task at h
    by_cases heq : t.uuid = task.uuid
    · simp only [beq_iff_eq, heq, if_true, Option.some.injEq] at h
      rw [← h]
      simp [heq]
    · simp only [beq_iff_eq, heq, if_false, Option.map_eq_some'] at h
      obtain ⟨rest', hrest, hcons⟩ := h
      rw [← hcons]
      simp [ih hrest]

/-- A successful in-place replacement means the UUID was present. -/
theorem replace_task_some_mem {tasks tasks' : List Task} {task : Task}
    (h : replace_task tasks task = some tasks') :
    task.uuid ∈ tasks.map Task.uuid := by
  by_cases hmem : task.uuid ∈ tasks.map Task.uuid
  · exact hmem
  · exfalso
    have hnone : replace_task tasks task = none := by
      rw [replace_task_none_iff]
      intro t ht hcontra
      exact hmem (hcontra ▸ List.mem_map_of_mem Task.uuid ht)
    rw [hnone] at h
    exact Option.noConfusion h

end Hive

/-- C5: identity integrity of the queue operations.  On a queue whose
tasks have pairwise-distinct UUIDs: `add_task` with an already-present
UUID fails and leaves the queue unchanged; `update_task` with an absent
UUID fails and leaves the queue unchanged; `add_or_update_task` is total
(it never fails, by type); and after any of the three operations the queue
still has pairwise-distinct UUIDs, with `add_or_update_task` leaving
exactly one record carrying the given task's UUID. -/
theorem C5_identity_integrity (tasks : List Hive.Task) (task : Hive.Task)
    (hnodup : (tasks.map Hive.Task.uuid).Nodup) :
    ((Hive.get_task tasks task.uuid).isSome →
      Hive.add_task tasks task = (.error task.uuid, tasks)) ∧
    (Hive.get_task tasks task.uuid = none →
      Hive.update_task tasks task = (.error task.uuid, tasks)) ∧
    ((Hive.add_task tasks task).2.map Hive.Task.uuid).Nodup ∧
    ((Hive.update_task tasks task).2.map Hive.Task.uuid).Nodup ∧
    ((Hive.add_or_update_task tasks task).map Hive.Task.uuid).Nodup ∧
    ((Hive.add_or_update_task tasks task).map Hive.Task.uuid).count task.uuid
      = 1 := by
  refine ⟨?_, ?_, ?_, ?_, ?_, ?_⟩
  · intro hsome
    unfold Hive.add_task
    rw [if_neg]
    simp only [Option.isNone_iff_eq_none]
    intro hnone
    rw [hnone] at hsome
    simp at hsome
  · intro hnone
    unfold Hive.update_task
    have : Hive.replace_task tasks task = none :=
      Hive.replace_task_none_iff.mpr (Hive.get_task_none_iff.mp hnone)
    rw [this]
  · unfold Hive.add_task
    by_cases habs : (Hive.get_task tasks task.uuid).isNone
    · rw [if_pos habs]
      have hno : task.uuid ∉ tasks.map Hive.Task.uuid := by
        intro hmem
        obtain ⟨t, ht, huuid⟩ := List.mem_map.mp hmem
        exact (Hive.get_task_none_iff.mp (Option.isNone_iff_eq_none.mp habs)
          t ht) huuid
      simp [List.nodup_append, hnodup, hno]
    · rw [if_neg habs]
      exact hnodup
  · unfold Hive.update_task
    cases hrep : Hive.replace_task tasks task with
    | some tasks' =>
      simpa [Hive.replace_task_map_uuid hrep] using hnodup
    | none => exact hnodup
  · unfold Hive.add_or_update_task
    cases hrep : Hive.replace_task tasks task with
    | some tasks' =>
      simpa [Hive.replace_task_map_uuid hrep] using hnodup
    | none =>
      have hno : task.uuid ∉ tasks.map Hive.Task.uuid := by
        intro hmem
        obtain ⟨t, ht, huuid⟩ := List.mem_map.mp hmem
        exact (Hive.replace_task_none_iff.mp hrep t ht) huuid
      simp [List.nodup_append, hnodup, hno]
  · unfold Hive.add_or_update_task
    cases hrep : Hive.replace_task tasks task with
    | some tasks' =>
      rw [Hive.replace_task_map_uuid hrep]
      have hmem : task.uuid ∈ tasks.map Hive.Task.uuid :=
        Hive.replace_task_some_mem hrep
      have hle : (tasks.map Hive.Task.uuid).count task.uuid ≤ 1 :=
        List.nodup_iff_count_le_one.mp hnodup task.uuid
      have hge : 1 ≤ (tasks.map Hive.Task.uuid).count task.uuid :=
        List.count_pos_iff.mpr hmem
      omega
    | none =>
      have hno : task.uuid ∉ tasks.map Hive.Task.uuid := by
        intro hmem
        obtain ⟨t, ht, huuid⟩ := List.mem_map.mp hmem
        exact (Hive.replace_task_none_iff.mp hrep t ht) huuid
      have hz : (tasks.map Hive.Task.uuid).count task.uuid = 0 :=
        List.count_eq_zero.mpr hno
      simp [List.count_append, hz]

/-- C5 witness: adding a task whose UUID 1 is already present fails and
leaves the one-element queue unchanged. -/
theorem C5_identity_integrity_witness :
    Hive.add_task
        [⟨1, "a", none, Hive.Job.Sleep 5, Hive.TaskState.Queued, 0,
          none, none, none, none⟩]
        ⟨1, "a", none, Hive.Job.Sleep 5, Hive.TaskState.Queued, 0,
          none, none, none, none⟩ =
      (.error 1,
        [⟨1, "a", none, Hive.Job.Sleep 5, Hive.TaskState.Queued, 0,
          none, none, none, none⟩]) :=
  (C5_identity_integrity
      [⟨1, "a", none, Hive.Job.Sleep 5, Hive.TaskState.Queued, 0,
        none, none, none, none⟩]
      ⟨1, "a", none, Hive.Job.Sleep 5, Hive.TaskState.Queued, 0,
        none, none, none, none⟩
      (by decide)).1 (by decide)

namespace FileEx

/-- Mirrors `file_ex::Error` in `src/util/file_ex.rs`; the payloads are
reduced to a message string. -/
inductive FeError where
  | CannotReadFile (msg : String)
  | CannotWriteFile (msg : String)
  | CannotDeserializeJSON (msg : String)
  | CannotSerializeJSON (msg : String)
  | CannotDeserializeJSONLines (msg : String)
  | CannotSerializeJSONLines (msg : String)
deriving DecidableEq, Repr

/-- The on-disk queue file as the jsonlines reader sees it: `none` when
the file does not exist, otherwise the list of lines, each line either a
task that parses or a parse-error message.  Parsing itself (serde) is
external I/O and is therefore part of the input. -/
def JsonlinesFile := Option (List (Except String Hive.Task))

/-- Rust's `iter.collect::<io::Result<Vec<D>>>()`: all lines must parse,
and the first failing line aborts the whole read. -/
def collect_lines : List (Except String Hive.Task) →
    Except String (List Hive.Task)
  | [] => .ok []
  | .error e :: _ => .error e
  | .ok t :: rest => (collect_lines rest).map (t :: ·)

/-- Mirrors `FileEx::read_from_jsonlines`: a missing file yields
`Ok(None)`; an existing file yields all parsed records, or
`CannotDeserializeJSONLines` if any single line fails to parse. -/
def read_from_jsonlines (file : Option (List (Except String Hive.Task))) :
    Except FeError (Option (List Hive.Task)) :=
  match file with
  | none => .ok none
  | some lines =>
    match collect_lines lines with
    | .error e => .error (.CannotDeserializeJSONLines e)
    | .ok tasks => .ok (some tasks)

end FileEx

namespace Hive

/-- Mirrors `TaskQueueLock::read_or_create_new_safe`: acquire the lock
(`acquire_wait`, whose outcome is an input here), read the jsonlines file,
and default a missing file to the empty queue.  On success the value is the
parsed task list held under the lock. -/
def read_or_create_new_safe
    (lockResult : Except Lockfile.LfError Lockfile.LockfileHandle)
    (file : Option (List (Except String Task))) :
    Except Lockfile.LfError (List Task) :=
  match lockResult with
  | .error e => .error e
  | .ok _ =>
    match FileEx.read_from_jsonlines file with
    | .error _ => .error .FileExError
    | .ok parsed => .ok (parsed.getD [])

end Hive

/-- C9: the queue reader treats a missing file as an empty queue, and an
existing file with any unparsable record makes the whole read fail — no
partially parsed queue is ever returned. -/
theorem C9_read_missing_or_malformed
    (h : Lockfile.LockfileHandle)
    (lines : List (Except String Hive.Task)) :
    Hive.read_or_create_new_safe (.ok h) none = .ok [] ∧
    ((∃ e, Except.error e ∈ lines) →
      ∃ msg, Hive.read_or_create_new_safe (.ok h) (some lines) =
        .error Lockfile.LfError.FileExError ∧
        FileEx.collect_lines lines = .error msg) := by
  constructor
  · rfl
  · intro ⟨e, hmem⟩
    have hbad : ∀ (ls : List (Except String Hive.Task)),
        (∃ e, Except.error e ∈ ls) →
        ∃ msg, FileEx.collect_lines ls = .error msg := by
      intro ls
      induction ls with
      | nil => rintro ⟨e, hmem⟩; simp at hmem
      | cons l rest ih =>
        rintro ⟨e, hmem⟩
        cases l with
        | error e0 => exact ⟨e0, rfl⟩
        | ok t =>
          rcases List.mem_cons.mp hmem with habs | hmem'
          · exact absurd habs (by simp)
          · obtain ⟨msg, hmsg⟩ := ih ⟨e, hmem'⟩
            refine ⟨msg, ?_⟩
            unfold FileEx.collect_lines
            rw [hmsg]
            rfl
    obtain ⟨msg, hmsg⟩ := hbad lines ⟨e, hmem⟩
    have hrj : FileEx.read_from_jsonlines (some lines) =
        .error (.CannotDeserializeJSONLines msg) := by
      simp only [FileEx.read_from_jsonlines]
      rw [hmsg]
    have hro : Hive.read_or_create_new_safe (.ok h) (some lines) =
        .error .FileExError := by
      simp only [Hive.read_or_create_new_safe]
      rw [hrj]
    exact ⟨msg, hro, hmsg⟩

/-- C9 witness: a file with one good line and one malformed line fails to
read as a whole. -/
theorem C9_read_missing_or_malformed_witness :
    ∃ msg, Hive.read_or_create_new_safe (.ok ⟨"q", "q.lock"⟩)
        (some [.ok ⟨1, "a", none, Hive.Job.Sleep 5, Hive.TaskState.Queued,
            0, none, none, none, none⟩, .error "bad json"]) =
        .error Lockfile.LfError.FileExError ∧
      FileEx.collect_lines
        [.ok ⟨1, "a", none, Hive.Job.Sleep 5, Hive.TaskState.Queued,
            0, none, none, none, none⟩, .error "bad json"] = .error msg :=
  (C9_read_missing_or_malformed ⟨"q", "q.lock"⟩
      [.ok ⟨1, "a", none, Hive.Job.Sleep 5, Hive.TaskState.Queued,
          0, none, none, none, none⟩, .error "bad json"]).2
    ⟨"bad json", by simp⟩

namespace Hive

/-- Mirrors `worker::Error` in `src/hive/worker/mod.rs`. -/
inductive WorkerError where
  | CannotReadQueue (e : Lockfile.LfError)
  | CannotReopenQueue (e : Lockfile.LfError)
  | CannotWriteQueue (e : Lockfile.LfError)
  | CannotUpdateTask (u : Nat)
  | TaskNotFound (u : Nat)
  | NoTopQueuedTask
deriving DecidableEq, Repr

/-- The in-place mutation at the top of `Worker::execute_task`: mark the
selected task `Working`, stamp the start time, and attach this worker's
identity.  No other field is touched. -/
def mark_working (info : WorkerInfo) (now : Int) (t : Task) : Task :=
  { t with
    state := TaskState.Working
    start_timestamp := some now
    worker_info := some info }

/-- Mirrors `Worker::execute_task_body`: run the job (its outcome is an
input, since `Job::run` is external I/O), record `Done` plus the success
payload or `Failed` plus the error payload, and stamp the finish time in
both cases. -/
def execute_task_body (jobOutcome : Except JobError JobSuccess) (now : Int)
    (task : Task) : Task :=
  match jobOutcome with
  | .ok s =>
    { task with
      state := TaskState.Done
      result := some (TaskResult.Success s)
      finish_timestamp := some now }
  | .error e =>
    { task with
      state := TaskState.Failed
      result := some (TaskResult.Error e)
      finish_timestamp := some now }

/-- The I/O outcomes one `Worker::execute_task` run can encounter: the
worker's identity, the two clock readings, the outcome of the first queue
write, of the job executor, of the queue reopen (which yields whatever the
queue file holds by then), and of the final queue write. -/
structure DispatchEnv where
  info : WorkerInfo
  now1 : Int
  now2 : Int
  write1 : Option Lockfile.LfError
  jobOutcome : Except JobError JobSuccess
  reopen : Except Lockfile.LfError (List Task)
  write2 : Option Lockfile.LfError

/-- The getter used by `Worker::take_on_task`: index of the first `Queued`
task (`top_queued_task_mut`). -/
def top_queued_index (tasks : List Task) : Except WorkerError Nat :=
  match tasks.findIdx? (fun t => t.state == TaskState.Queued) with
  | some i => .ok i
  | none => .error .NoTopQueuedTask

/-- The getter used by `Worker::execute_task_with_uuid`: index of the first
task with the given UUID (`get_task_mut`). -/
def uuid_index (tasks : List Task) (u : Nat) : Except WorkerError Nat :=
  match tasks.findIdx? (fun t => t.uuid == u) with
  | some i => .ok i
  | none => .error (.TaskNotFound u)

/-- Mirrors `Worker::execute_task`.  A mutable reference into the queue is
modelled as an index; the functional result is the Rust return value
together with the successive queue snapshots durably persisted by
successful `write_to_file` calls.  The `none` index branch is unreachable
for the source's getters, which always return a reference into the
queue. -/
def execute_task (env : DispatchEnv) (queue : List Task)
    (getter : List Task → Except WorkerError Nat) :
    Except WorkerError (List Task) × List (List Task) :=
  match getter queue with
  | .error e => (.error e, [])
  | .ok i =>
    match queue[i]? with
    | none => (.error (.TaskNotFound 0), [])
    | some t0 =>
      match env.write1 with
      | some e => (.error (.CannotWriteQueue e), [])
      | none =>
        match env.reopen with
        | .error e =>
          (.error (.CannotReopenQueue e),
            [queue.set i (mark_working env.info env.now1 t0)])
        | .ok queueR =>
          match update_task queueR
              (execute_task_body env.jobOutcome env.now2
                (mark_working env.info env.now1 t0)) with
          | (.error u, _) =>
            (.error (.CannotUpdateTask u),
              [queue.set i (mark_working env.info env.now1 t0)])
          | (.ok _, queue2) =>
            match env.write2 with
            | some e =>
              (.error (.CannotWriteQueue e),
                [queue.set i (mark_working env.info env.now1 t0)])
            | none =>
              (.ok queue2,
                [queue.set i (mark_working env.info env.now1 t0), queue2])

/-- A successful in-place replacement makes the replacement the first task
found under its UUID. -/
theorem replace_task_get {tasks tasks' : List Task} {task : Task}
    (h : replace_task tasks task = some tasks') :
    get_task tasks' task.uuid = some task := by
  induction tasks generalizing tasks' with
  | nil => simp [replace_task] at h
  | cons t rest ih =>
    unfold replace_task at h
    by_cases heq : t.uuid = task.uuid
    · simp only [beq_iff_eq, heq, if_true, Option.some.injEq] at h
      rw [← h]
      simp [get_task]
    · simp only [beq_iff_eq, heq, if_false, Option.map_eq_some'] at h
      obtain ⟨rest', hrest, hcons⟩ := h
      rw [← hcons]
      unfold get_task
      rw [List.find?_cons_of_neg _ (by simpa using heq)]
      exact ih hrest

/-- A successful `update_task` makes the replacement the first task found
under its UUID. -/
theorem update_task_ok_get {tasks tasks' : List Task} {task : Task}
    (h : update_task tasks task = (.ok (), tasks')) :
    get_task tasks' task.uuid = some task := by
  unfold update_task at h
  cases hrep : replace_task tasks task with
  | some ts =>
    rw [hrep] at h
    obtain ⟨-, h2⟩ := Prod.mk.injEq .. ▸ h
    exact h2 ▸ replace_task_get hrep
  | none =>
    rw [hrep] at h
    simp at h

/-- Neither marking a task working nor recording its terminal state
changes its UUID. -/
theorem dispatch_preserves_uuid (info : WorkerInfo) (now1 now2 : Int)
    (jobOutcome : Except JobError JobSuccess) (t : Task) :
    (mark_working info now1 t).uuid = t.uuid ∧
    (execute_task_body jobOutcome now2 (mark_working info now1 t)).uuid
      = t.uuid := by
  cases jobOutcome <;> simp [mark_working, execute_task_body]

end Hive

/-- C4: dispatch claim and commit postconditions.  For a task selected by
the getter in `Worker::execute_task`, on the protocol's success path the
first persisted queue snapshot (written before the job runs) holds the
selected task marked `Working` with its start timestamp and worker identity
set, and the second (final) snapshot holds the terminal record: `Done` with
the success payload if the executor succeeded, `Failed` with the error
payload if it failed, and a non-null finish timestamp either way. -/
theorem C4_dispatch_mark_and_commit
    (env : Hive.DispatchEnv) (queue : List Hive.Task)
    (getter : List Hive.Task → Except Hive.WorkerError Nat)
    (i : Nat) (t0 : Hive.Task) (queueR queue2 : List Hive.Task)
    (hget : getter queue = .ok i)
    (ht0 : queue[i]? = some t0)
    (hw1 : env.write1 = none)
    (hre : env.reopen = .ok queueR)
    (hup : Hive.update_task queueR
        (Hive.execute_task_body env.jobOutcome env.now2
          (Hive.mark_working env.info env.now1 t0)) = (.ok (), queue2))
    (hw2 : env.write2 = none) :
    (Hive.execute_task env queue getter).1 = .ok queue2 ∧
    (Hive.execute_task env queue getter).2 =
      [queue.set i (Hive.mark_working env.info env.now1 t0), queue2] ∧
    (Hive.mark_working env.info env.now1 t0).state = .Working ∧
    (Hive.mark_working env.info env.now1 t0).start_timestamp
      = some env.now1 ∧
    (Hive.mark_working env.info env.now1 t0).worker_info = some env.info ∧
    Hive.get_task queue2 t0.uuid =
      some (Hive.execute_task_body env.jobOutcome env.now2
        (Hive.mark_working env.info env.now1 t0)) ∧
    (Hive.execute_task_body env.jobOutcome env.now2
      (Hive.mark_working env.info env.now1 t0)).finish_timestamp
      = some env.now2 ∧
    (∀ s, env.jobOutcome = .ok s →
      (Hive.execute_task_body env.jobOutcome env.now2
        (Hive.mark_working env.info env.now1 t0)).state = .Done ∧
      (Hive.execute_task_body env.jobOutcome env.now2
        (Hive.mark_working env.info env.now1 t0)).result
        = some (.Success s)) ∧
    (∀ e, env.jobOutcome = .error e →
      (Hive.execute_task_body env.jobOutcome env.now2
        (Hive.mark_working env.info env.now1 t0)).state = .Failed ∧
      (Hive.execute_task_body env.jobOutcome env.now2
        (Hive.mark_working env.info env.now1 t0)).result
        = some (.Error e)) := by
  refine ⟨?_, ?_, ?_, ?_, ?_, ?_, ?_, ?_, ?_⟩
  · simp only [Hive.execute_task, hget, ht0, hw1, hre, hup, hw2]
  · simp only [Hive.execute_task, hget, ht0, hw1, hre, hup, hw2]
  · simp [Hive.mark_working]
  · simp [Hive.mark_working]
  · simp [Hive.mark_working]
  · have huuid := (Hive.dispatch_preserves_uuid env.info env.now1 env.now2
      env.jobOutcome t0).2
    have hg := Hive.update_task_ok_get hup
    rw [huuid] at hg
    exact hg
  · cases env.jobOutcome <;> simp [Hive.execute_task_body]
  · intro s hs
    rw [hs]
    simp [Hive.execute_task_body]
  · intro e he
    rw [he]
    simp [Hive.execute_task_body]

/-- C4 witness: a fully concrete successful dispatch run over a
one-element queue, with the job succeeding with `Void`. -/
theorem C4_dispatch_mark_and_commit_witness :
    (Hive.execute_task
        ⟨⟨"w", 7, 0, "addr"⟩, 10, 20, none, .ok .Void,
          .ok [Hive.mark_working ⟨"w", 7, 0, "addr"⟩ 10
            ⟨1, "a", none, Hive.Job.Sleep 5, Hive.TaskState.Queued, 0,
              none, none, none, none⟩], none⟩
        [⟨1, "a", none, Hive.Job.Sleep 5, Hive.TaskState.Queued, 0,
          none, none, none, none⟩]
        Hive.top_queued_index).1 =
      .ok [Hive.execute_task_body (.ok .Void) 20
        (Hive.mark_working ⟨"w", 7, 0, "addr"⟩ 10
          ⟨1, "a", none, Hive.Job.Sleep 5, Hive.TaskState.Queued, 0,
            none, none, none, none⟩)] :=
  (C4_dispatch_mark_and_commit
      ⟨⟨"w", 7, 0, "addr"⟩, 10, 20, none, .ok .Void,
        .ok [Hive.mark_working ⟨"w", 7, 0, "addr"⟩ 10
          ⟨1, "a", none, Hive.Job.Sleep 5, Hive.TaskState.Queued, 0,
            none, none, none, none⟩], none⟩
      [⟨1, "a", none, Hive.Job.Sleep 5, Hive.TaskState.Queued, 0,
        none, none, none, none⟩]
      Hive.top_queued_index 0
      ⟨1, "a", none, Hive.Job.Sleep 5, Hive.TaskState.Queued, 0,
        none, none, none, none⟩
      [Hive.mark_working ⟨"w", 7, 0, "addr"⟩ 10
        ⟨1, "a", none, Hive.Job.Sleep 5, Hive.TaskState.Queued, 0,
          none, none, none, none⟩]
      [Hive.execute_task_body (.ok .Void) 20
        (Hive.mark_working ⟨"w", 7, 0, "addr"⟩ 10
          ⟨1, "a", none, Hive.Job.Sleep 5, Hive.TaskState.Queued, 0,
            none, none, none, none⟩)]
      rfl rfl rfl rfl rfl rfl).1

/-- C6: job errors are data, not control flow.  If the job executor
returns an error, `Worker::execute_task` still returns `Ok` and the task is
committed as `Failed` with a structured error payload and a finish
timestamp.  A protocol failure — the first or final queue write failing,
the lock reacquisition (reopen) failing, or the task not being found at
commit — is returned as a distinct `worker::Error`, and in each such case
the last queue snapshot durably persisted holds the task still `Working`
with no finish timestamp. -/
theorem C6_job_errors_are_data
    (env : Hive.DispatchEnv) (queue : List Hive.Task)
    (getter : List Hive.Task → Except Hive.WorkerError Nat)
    (i : Nat) (t0 : Hive.Task)
    (hget : getter queue = .ok i)
    (ht0 : queue[i]? = some t0)
    (hfin : t0.finish_timestamp = none) :
    (∀ e queueR queue2, env.write1 = none → env.jobOutcome = .error e →
      env.reopen = .ok queueR →
      Hive.update_task queueR
        (Hive.execute_task_body env.jobOutcome env.now2
          (Hive.mark_working env.info env.now1 t0)) = (.ok (), queue2) →
      env.write2 = none →
      (Hive.execute_task env queue getter).1 = .ok queue2 ∧
      Hive.get_task queue2 t0.uuid =
        some (Hive.execute_task_body env.jobOutcome env.now2
          (Hive.mark_working env.info env.now1 t0)) ∧
      (Hive.execute_task_body env.jobOutcome env.now2
        (Hive.mark_working env.info env.now1 t0)).state = .Failed ∧
      (Hive.execute_task_body env.jobOutcome env.now2
        (Hive.mark_working env.info env.now1 t0)).result
        = some (.Error e) ∧
      (Hive.execute_task_body env.jobOutcome env.now2
        (Hive.mark_working env.info env.now1 t0)).finish_timestamp
        = some env.now2) ∧
    (∀ e, env.write1 = some e →
      (Hive.execute_task env queue getter).1
        = .error (.CannotWriteQueue e)) ∧
    (∀ e, env.write1 = none → env.reopen = .error e →
      Hive.execute_task env queue getter =
        (.error (.CannotReopenQueue e),
          [queue.set i (Hive.mark_working env.info env.now1 t0)])) ∧
    (∀ queueR u qjunk, env.write1 = none → env.reopen = .ok queueR →
      Hive.update_task queueR
        (Hive.execute_task_body env.jobOutcome env.now2
          (Hive.mark_working env.info env.now1 t0)) = (.error u, qjunk) →
      Hive.execute_task env queue getter =
        (.error (.CannotUpdateTask u),
          [queue.set i (Hive.mark_working env.info env.now1 t0)])) ∧
    (∀ queueR queue2 e, env.write1 = none → env.reopen = .ok queueR →
      Hive.update_task queueR
        (Hive.execute_task_body env.jobOutcome env.now2
          (Hive.mark_working env.info env.now1 t0)) = (.ok (), queue2) →
      env.write2 = some e →
      Hive.execute_task env queue getter =
        (.error (.CannotWriteQueue e),
          [queue.set i (Hive.mark_working env.info env.now1 t0)])) ∧
    (Hive.mark_working env.info env.now1 t0).state = .Working ∧
    (Hive.mark_working env.info env.now1 t0).finish_timestamp = none := by
  refine ⟨?_, ?_, ?_, ?_, ?_, ?_, ?_⟩
  · intro e queueR queue2 hw1 hjob hre hup hw2
    refine ⟨?_, ?_, ?_, ?_, ?_⟩
    · simp only [Hive.execute_task, hget, ht0, hw1, hre, hup, hw2]
    · have huuid := (Hive.dispatch_preserves_uuid env.info env.now1 env.now2
        env.jobOutcome t0).2
      have hg := Hive.update_task_ok_get hup
      rw [huuid] at hg
      exact hg
    · rw [hjob]; simp [Hive.execute_task_body]
    · rw [hjob]; simp [Hive.execute_task_body]
    · rw [hjob]; simp [Hive.execute_task_body]
  · intro e hw1
    simp only [Hive.execute_task, hget, ht0, hw1]
  · intro e hw1 hre
    simp only [Hive.execute_task, hget, ht0, hw1, hre]
  · intro queueR u qjunk hw1 hre hup
    simp only [Hive.execute_task, hget, ht0, hw1, hre, hup]
  · intro queueR queue2 e hw1 hre hup hw2
    simp only [Hive.execute_task, hget, ht0, hw1, hre, hup, hw2]
  · simp [Hive.mark_working]
  · simp [Hive.mark_working, hfin]

/-- C6 witness: a concrete dispatch run over a one-element queue in which
reopening the queue after the job fails; the run returns the distinct
reopen error and the only persisted snapshot holds the task `Working`. -/
theorem C6_job_errors_are_data_witness :
    Hive.execute_task
        ⟨⟨"w", 7, 0, "addr"⟩, 10, 20, none, .ok .Void,
          .error Lockfile.LfError.CannotWatchLockfile, none⟩
        [⟨1, "a", none, Hive.Job.Sleep 5, Hive.TaskState.Queued, 0,
          none, none, none, none⟩]
        Hive.top_queued_index =
      (.error (.CannotReopenQueue Lockfile.LfError.CannotWatchLockfile),
        [[Hive.mark_working ⟨"w", 7, 0, "addr"⟩ 10
          ⟨1, "a", none, Hive.Job.Sleep 5, Hive.TaskState.Queued, 0,
            none, none, none, none⟩]]) :=
  ((C6_job_errors_are_data
      ⟨⟨"w", 7, 0, "addr"⟩, 10, 20, none, .ok .Void,
        .error Lockfile.LfError.CannotWatchLockfile, none⟩
      [⟨1, "a", none, Hive.Job.Sleep 5, Hive.TaskState.Queued, 0,
        none, none, none, none⟩]
      Hive.top_queued_index 0
      ⟨1, "a", none, Hive.Job.Sleep 5, Hive.TaskState.Queued, 0,
        none, none, none, none⟩
      rfl rfl rfl).2.2.1) Lockfile.LfError.CannotWatchLockfile rfl rfl

namespace Ipc

/-- Mirrors the constants of `src/hive/worker/ipc.rs`. -/
def INCOMING_MESSAGE_SIZE_LIMIT : Nat := 1048576

/-- Mirrors `OUTGOING_MESSAGE_SIZE_LIMIT`. -/
def OUTGOING_MESSAGE_SIZE_LIMIT : Nat := 1048576

/-- Mirrors `TERMINATION_REQUEST_EXIT_CODE`. -/
def TERMINATION_REQUEST_EXIT_CODE : Int := 100

/-- Mirrors `IncomingMessage`. -/
inductive IncomingMessage where
  | WhoAreYou
  | TerminationRequest
deriving DecidableEq, Repr

/-- Mirrors `OutgoingMessage`. -/
inductive OutgoingMessage where
  | WhoAreYouResponse (name : String) (pid : Nat)
deriving DecidableEq, Repr

/-- The observable effect of `handle_message` on one message. -/
inductive HandleEffect where
  | sent (m : OutgoingMessage)
  | exited (code : Int)
deriving DecidableEq, Repr

/-- Mirrors `handle_message` in `src/hive/worker/ipc.rs`: `WhoAreYou`
answers with a `WhoAreYouResponse` whose name field is the string literal
`test name` (the source hardcodes it, with a todo comment) and whose pid is
the process id; `TerminationRequest` exits the process with the fixed
code. -/
def handle_message (selfPid : Nat) : IncomingMessage → HandleEffect
  | .WhoAreYou => .sent (.WhoAreYouResponse "test name" selfPid)
  | .TerminationRequest => .exited TERMINATION_REQUEST_EXIT_CODE

/-- How one `connection_handler` loop ends: the socket shut down after a
receive error, the whole process exited on a termination request, or the
supplied reads are exhausted with the loop still blocked on the next
message and the socket still open. -/
inductive ConnOutcome where
  | closedOnIoError
  | exitedProcess (code : Int)
  | pendingRead
deriving DecidableEq, Repr

/-- Mirrors `connection_handler` in `src/hive/worker/ipc.rs`.  Each list
entry is the outcome of one `receive_message` call (an I/O/size error, or
the raw bytes); `parse` is the serde parsing oracle for those bytes.  On a
receive error the handler shuts the socket down and breaks; on bytes that
fail to parse it logs them and continues the loop; on a parsed message it
lets `handle_message` act and continues (unless the process exited). -/
def connection_handler (parse : List Nat → Option IncomingMessage)
    (selfPid : Nat) : List (Except Unit (List Nat)) → ConnOutcome
  | [] => .pendingRead
  | .error _ :: _ => .closedOnIoError
  | .ok bytes :: rest =>
    match parse bytes with
    | none => connection_handler parse selfPid rest
    | some m =>
      match handle_message selfPid m with
      | .exited code => .exitedProcess code
      | .sent _ => connection_handler parse selfPid rest

end Ipc

/-- C7 counterexample: the claim says a message whose bytes fail to parse
terminates the connection just as an I/O error does.  On this concrete
trace a single unparseable message arrives: the handler does not close the
socket (it keeps looping, ending up blocked on the next read), while the
same handler on an I/O read error does close it. -/
theorem C7_unparseable_message_does_not_close :
    (fun _ => (none : Option Ipc.IncomingMessage)) [103] = none ∧
    Ipc.connection_handler (fun _ => none) 7 [.ok [103]] =
      Ipc.ConnOutcome.pendingRead ∧
    Ipc.ConnOutcome.pendingRead ≠ Ipc.ConnOutcome.closedOnIoError ∧
    Ipc.connection_handler (fun _ => none) 7 [.error ()] =
      Ipc.ConnOutcome.closedOnIoError :=
  ⟨rfl, rfl, by decide, rfl⟩

/-- C7 (amended): a message that fails to parse is logged and the
connection handler continues reading the same connection (the socket stays
open); only an I/O error while receiving a message terminates that
connection.  The handler is per-connection, so neither outcome affects the
listener or other connections. -/
theorem C7_parse_failure_continues
    (parse : List Nat → Option Ipc.IncomingMessage) (selfPid : Nat)
    (bytes : List Nat) (rest : List (Except Unit (List Nat)))
    (hparse : parse bytes = none) :
    Ipc.connection_handler parse selfPid (.ok bytes :: rest) =
      Ipc.connection_handler parse selfPid rest ∧
    (∀ (e : Unit) (rest2 : List (Except Unit (List Nat))),
      Ipc.connection_handler parse selfPid (.error e :: rest2) =
        Ipc.ConnOutcome.closedOnIoError) := by
  constructor
  · simp only [Ipc.connection_handler, hparse]
  · intro e rest2
    rfl

/-- C7 witness: a concrete unparseable message followed by a termination
request; the handler skips the bad message and still processes the next
one. -/
theorem C7_parse_failure_continues_witness :
    Ipc.connection_handler
        (fun bs => if bs = [1] then none else some .TerminationRequest) 7
        (.ok [1] :: [.ok [2]]) =
      Ipc.connection_handler
        (fun bs => if bs = [1] then none else some .TerminationRequest) 7
        [.ok [2]] :=
  (C7_parse_failure_continues
      (fun bs => if bs = [1] then none else some .TerminationRequest) 7
      [1] [.ok [2]] (by decide)).1

/-- C8: the claim says the `WhoAreYouResponse` carries the receiving
worker's own recorded name.  The handler instead hardcodes the name field
to the literal `test name` (marked with a todo in the source), whatever the
worker's recorded name is; the pid field is the process id as claimed.
Evaluated at the failing input: a worker whose recorded name is `alice`
with process id 42 receiving `WhoAreYou` answers with name `test name`. -/
theorem C8_whoareyou_response_hardcodes_name :
    Ipc.handle_message 42 .WhoAreYou =
      .sent (.WhoAreYouResponse "test name" 42) ∧
    "test name" ≠ "alice" :=
  ⟨rfl, by decide⟩

namespace Library

/-- Mirrors `LibraryDatabaseLock::STANDARD_FILENAME` in
`src/library/database.rs`. -/
def LibraryDatabaseLock_STANDARD_FILENAME : String := "library_database.json"

end Library

namespace Hive

/-- Mirrors `TaskQueueLock::STANDARD_FILENAME` in `src/hive/queue.rs`. -/
def TaskQueueLock_STANDARD_FILENAME : String := "task_queue.jsonl"

end Hive

namespace Cfg

/-- Mirrors `Config` in `src/config/mod.rs`; a `PathBuf` is modelled as
its list of components, `join` appending one component. -/
structure Config where
  domain_name : String
  shared_data_repo_path : List String
  default_library_dir_path : List String
deriving DecidableEq, Repr

/-- Mirrors `Config::library_database_path`:
`shared_data_repo_path.join(LibraryDatabaseLock::STANDARD_FILENAME)`. -/
def Config.library_database_path (c : Config) : List String :=
  c.shared_data_repo_path ++ [Library.LibraryDatabaseLock_STANDARD_FILENAME]

/-- The path `Worker::open_queue` passes to
`TaskQueueLock::read_or_create_new_safe`: the source passes
`self.config.library_database_path()`. -/
def open_queue_path (c : Config) : List String :=
  c.library_database_path

/-- The path `job.rs::open_library_database` locks for a `ProcessVideo`
job: also `config.library_database_path()`. -/
def process_video_library_path (c : Config) : List String :=
  c.library_database_path

end Cfg

/-- C10 (implicit claim): `Worker::open_queue` opens the task queue at the
config's shared-data path joined with the library database's standard
filename `library_database.json` — not at the task queue's own standard
filename `task_queue.jsonl` — so the worker's queue file path coincides
with the media-library database path that `ProcessVideo` jobs also
lock. -/
theorem C10_open_queue_path_is_library_database (c : Cfg.Config) :
    Cfg.open_queue_path c =
      c.shared_data_repo_path ++
        [Library.LibraryDatabaseLock_STANDARD_FILENAME] ∧
    Cfg.open_queue_path c ≠
      c.shared_data_repo_path ++ [Hive.TaskQueueLock_STANDARD_FILENAME] ∧
    Cfg.open_queue_path c = Cfg.process_video_library_path c := by
  refine ⟨rfl, ?_, rfl⟩
  intro hcontra
  have h1 := List.append_cancel_left hcontra
  have h2 : Library.LibraryDatabaseLock_STANDARD_FILENAME =
      Hive.TaskQueueLock_STANDARD_FILENAME := by
    simpa using h1
  exact absurd h2 (by decide)

/-- C10 witness: on a concrete configuration the worker's queue file path
evaluates to the library database path. -/
theorem C10_open_queue_path_witness :
    Cfg.open_queue_path ⟨"d", ["repo"], ["lib"]⟩ =
      ["repo", "library_database.json"] := by
  have h := C10_open_queue_path_is_library_database ⟨"d", ["repo"], ["lib"]⟩
  simpa [Library.LibraryDatabaseLock_STANDARD_FILENAME] using h.1
